import Mathlib

/-!
Verification development for the configuration script
`config/ctrl_sensorless_vector_syrm_7kW.py` of the motulator repository.

The script itself (base-value record, controller-parameter record, wiring of
the optimal-locus tables into the control pipeline, stimulus profiles, stop
time) is embedded directly from the source.  The helper classes it imports
(`OptimalLoci` from `control.sm.opt_refs`, `LUT` and `Sequence` from
`helpers`, and the controller constructors from `control.common` /
`control.sm.vector`) are not part of the visible source tree; those are
modelled from the specification, as marked in their doc comments.
-/

namespace Motulator

/-! ### Piecewise interpolant -/

/-- Modelled from the spec: the walking step of the Piecewise Interpolant
(`helpers.LUT` / `helpers.Sequence`, not under `src/`).  `t0, v0` is the last
breakpoint already passed (`t0 ≤ q` holds at every call from `interp`).  If
the next breakpoint `t1` lies strictly beyond the query, the result is the
linear interpolation between `(t0, v0)` and `(t1, v1)`; otherwise the walk
advances, which at a duplicated abscissa (`t1 = t0 = q`) realizes the
right-limit policy.  Running past the end clamps to the last value. -/
def interpGo {α : Type} [LinearOrderedField α] (t0 v0 : α) :
    List (α × α) → α → α
  | [], _ => v0
  | (t1, v1) :: rest, q =>
      if q < t1 then v0 + (q - t0) * (v1 - v0) / (t1 - t0)
      else interpGo t1 v1 rest q

/-- Modelled from the spec: the Piecewise Interpolant evaluation over a
breakpoint list (abscissa, value).  A query strictly below the first
abscissa clamps to the first value; otherwise the walk `interpGo` performs
linear interpolation with clamping above the last abscissa and the
right-limit policy at duplicated abscissas. -/
def interp {α : Type} [LinearOrderedField α] : List (α × α) → α → α
  | [], _ => 0
  | (t0, v0) :: rest, q => if q < t0 then v0 else interpGo t0 v0 rest q

/-- The lookup-table record of `helpers.LUT`: an abscissa array paired with a
value array. -/
structure LUT where
  x : List ℝ
  y : List ℝ

/-- Modelled from the spec: `LUT.__call__` evaluates the piecewise-linear
interpolant through the table nodes. -/
noncomputable def LUT.eval (f : LUT) (q : ℝ) : ℝ :=
  interp (f.x.zip f.y) q

/-- The time-profile record of `helpers.Sequence`: breakpoint times paired
with breakpoint values. -/
structure Sequence where
  times : List ℝ
  values : List ℝ

/-- Modelled from the spec: `Sequence.__call__` evaluates the same
piecewise-linear interpolant contract as `LUT`, over time. -/
noncomputable def Sequence.eval (s : Sequence) (t : ℝ) : ℝ :=
  interp (s.times.zip s.values) t

/-! ### BaseValues (source lines 19-35)

The Python class is a dataclass: every field, the derived ones included, is a
constructor parameter with a default.  The defaults of the derived fields are
computed once, at class-definition time, from the class-default rated values
`w, i, u, p`; they do not track rated values passed at construction time. -/

/-- Class default of the rated angular speed field `w` (line 27). -/
noncomputable def BaseValues.w0 : ℝ := 2 * Real.pi * 105.8

/-- Class default of the rated peak current field `i` (line 28). -/
noncomputable def BaseValues.i0 : ℝ := Real.sqrt 2 * 15.5

/-- Class default of the rated peak voltage field `u` (line 29). -/
noncomputable def BaseValues.u0 : ℝ := Real.sqrt (2 / 3) * 370

/-- Class default of the pole-pair field `p` (line 30). -/
def BaseValues.p0 : ℤ := 2

/-- Class default of the derived flux field `psi = u/w` (line 31), computed
from the class defaults. -/
noncomputable def BaseValues.psi0 : ℝ := BaseValues.u0 / BaseValues.w0

/-- Class default of the derived power field `P = 1.5*u*i` (line 32),
computed from the class defaults. -/
noncomputable def BaseValues.P0 : ℝ := 1.5 * BaseValues.u0 * BaseValues.i0

/-- Class default of the derived impedance field `Z = u/i` (line 33),
computed from the class defaults. -/
noncomputable def BaseValues.Z0 : ℝ := BaseValues.u0 / BaseValues.i0

/-- Class default of the derived inductance field `L = Z/w` (line 34),
computed from the class defaults. -/
noncomputable def BaseValues.L0 : ℝ := BaseValues.Z0 / BaseValues.w0

/-- Class default of the derived torque field `tau = p*P/w` (line 35),
computed from the class defaults. -/
noncomputable def BaseValues.tau0 : ℝ :=
  (BaseValues.p0 : ℝ) * BaseValues.P0 / BaseValues.w0

/-- The `BaseValues` dataclass of source lines 19-35. -/
structure BaseValues where
  w : ℝ
  i : ℝ
  u : ℝ
  p : ℤ
  psi : ℝ
  P : ℝ
  Z : ℝ
  L : ℝ
  tau : ℝ

/-- Construction of a `BaseValues` record from the four rated inputs, leaving
every derived field at its dataclass default: this is what the generated
`__init__` does when only `w, i, u, p` are passed.  The derived defaults were
fixed at class-definition time, so they are constants independent of the
rated arguments. -/
noncomputable def BaseValues.construct (w i u : ℝ) (p : ℤ) : BaseValues :=
  ⟨w, i, u, p, BaseValues.psi0, BaseValues.P0, BaseValues.Z0, BaseValues.L0,
    BaseValues.tau0⟩

/-! ### CtrlParameters (source lines 39-68) -/

/-- The `CtrlParameters` dataclass of source lines 39-68.  The two optional
table fields `i_sd_mtpa` and `i_sq_mtpv` do not exist at construction time in
the source (they are attached at lines 77 and 79); they are modelled as
`Option` fields that start out `none`. -/
structure CtrlParameters where
  T_s : ℝ
  alpha_c : ℝ
  alpha_fw : ℝ
  alpha_s : ℝ
  w_o : ℝ
  tau_M_max : ℝ
  i_s_max : ℝ
  i_sd_min : ℝ
  u_dc_nom : ℝ
  w_nom : ℝ
  R_s : ℝ
  L_d : ℝ
  L_q : ℝ
  psi_f : ℝ
  p : ℤ
  J : ℝ
  i_sd_mtpa : Option LUT
  i_sq_mtpv : Option LUT

/-- The record `pars = CtrlParameters()` of source line 73, with every field
at its dataclass default (source lines 48-68) and the two table fields not
yet populated. -/
noncomputable def pars0 : CtrlParameters where
  T_s := 0.00025
  alpha_c := 2 * Real.pi * 100
  alpha_fw := 2 * Real.pi * 20
  alpha_s := 2 * Real.pi * 4
  w_o := 2 * Real.pi * 40
  tau_M_max := 2 * 20.1
  i_s_max := 2 * Real.sqrt 2 * 15.5
  i_sd_min := 0.25 * Real.sqrt 2 * 15.5
  u_dc_nom := 540
  w_nom := 2 * Real.pi * 105.8
  R_s := 0.54
  L_d := 0.0415
  L_q := 0.0062
  psi_f := 0
  p := 2
  J := 0.015
  i_sd_mtpa := none
  i_sq_mtpv := none

/-! ### Optimal locus solver (`control.sm.opt_refs.OptimalLoci`) -/

/-- The solver object `OptimalLoci(pars)`: it holds the controller-parameter
record it was constructed from. -/
structure OptimalLoci where
  pars : CtrlParameters

/-- Modelled from the spec: the sweep grid of the Optimal Locus Solver, `N+1`
evenly spaced magnitudes from `0` to the requested bound.  The spec leaves
the number of sweep points open, so `N` stays a parameter. -/
def sweepList {α : Type} [LinearOrderedField α] (bound : α) (N : ℕ) : List α :=
  (List.range (N + 1)).map (fun k : ℕ => bound * (k : α) / (N : α))

/-- Modelled from the spec: the torque function of the Optimal Locus Solver,
`torque(i_s) = p * (psi_f * imag(i_s) + (L_d - L_q) * real(i_s) * imag(i_s))`,
with the current phasor represented as a (real, imaginary) pair. -/
noncomputable def OptimalLoci.torque (o : OptimalLoci) (i_s : ℝ × ℝ) : ℝ :=
  (o.pars.p : ℝ) *
    (o.pars.psi_f * i_s.2 + (o.pars.L_d - o.pars.L_q) * i_s.1 * i_s.2)

/-- Modelled from the spec: cosine of the MTPA current angle for the salient
case, obtained by setting the torque-angle derivative to zero
(`psi_f*m*cos + (L_d-L_q)*m^2*(2*cos^2 - 1) = 0`, solved for the cosine). -/
noncomputable def OptimalLoci.mtpaCos (o : OptimalLoci) (m : ℝ) : ℝ :=
  (-o.pars.psi_f +
      Real.sqrt (o.pars.psi_f ^ 2 + 8 * (o.pars.L_d - o.pars.L_q) ^ 2 * m ^ 2)) /
    (4 * (o.pars.L_d - o.pars.L_q) * m)

/-- Modelled from the spec: the MTPA phasor at one swept magnitude `m`.  In
the degenerate zero-saliency case (`L_d = L_q`) the closed form breaks down
(the spec's `DegenerateMachineError`); the solver detects it and recovers by
falling back to the purely q-axis solution `(0, m)` instead of dividing by
zero, and no failure is propagated.  In the salient case the phasor is
`m * (cos, sin)` with the closed-form optimal angle. -/
noncomputable def OptimalLoci.mtpaPoint (o : OptimalLoci) (m : ℝ) : ℝ × ℝ :=
  if o.pars.L_d = o.pars.L_q then (0, m)
  else (m * o.mtpaCos m, m * Real.sqrt (1 - o.mtpaCos m ^ 2))

/-- Modelled from the spec: the MTPA locus `OptimalLoci.mtpa(bound)`, the
torque-maximizing phasor at each magnitude of the sweep from `0` to the
requested bound.  The spec's fatal `InvalidSweepRange` guard for a
non-positive bound is not modelled: the configured call site passes the
positive bound `2*i_s_max`. -/
noncomputable def OptimalLoci.mtpa (o : OptimalLoci) (bound : ℝ) (N : ℕ) :
    List (ℝ × ℝ) :=
  (sweepList bound N).map o.mtpaPoint

/-- Modelled from the spec: the MTPV phasor on the flux ellipse of magnitude
`psi`.  The spec specifies only "the current phasor that maximizes torque
subject to a voltage-ellipse constraint" and leaves the closed form open
(design note in spec section 9); modelled as the stationary point of the
reluctance torque on the ellipse for the zero-PM-flux machine,
`(psi/(sqrt 2 * L_d), psi/(sqrt 2 * L_q))`, with the q-axis fallback at zero
saliency. -/
noncomputable def OptimalLoci.mtpvPoint (o : OptimalLoci) (psi : ℝ) : ℝ × ℝ :=
  if o.pars.L_d = o.pars.L_q then (0, psi / o.pars.L_q)
  else (psi / (Real.sqrt 2 * o.pars.L_d), psi / (Real.sqrt 2 * o.pars.L_q))

/-- Modelled from the spec: the MTPV locus `OptimalLoci.mtpv(bound)`.  The
flux-magnitude sweep is derived from the same current-magnitude sweep, scaled
by `L_q`, per the convention flagged as an open question in the spec. -/
noncomputable def OptimalLoci.mtpv (o : OptimalLoci) (bound : ℝ) (N : ℕ) :
    List (ℝ × ℝ) :=
  (sweepList bound N).map (fun m => o.mtpvPoint (o.pars.L_q * m))

/-- Output of the informational `OptimalLoci.plot(bound, base)` call: both
loci normalized by the base current of the `BaseValues` record handed in.
The spec excludes the rendering from core correctness; the record keeps what
flows into it. -/
structure PlotOutput where
  bound : ℝ
  base : BaseValues
  mtpaLocus : List (ℝ × ℝ)
  mtpvLocus : List (ℝ × ℝ)

/-- Modelled from the spec: `OptimalLoci.plot` renders both loci normalized
by the base values; pure visualization, not consumed by the control loop. -/
noncomputable def OptimalLoci.plot (o : OptimalLoci) (bound : ℝ)
    (b : BaseValues) (N : ℕ) : PlotOutput :=
  ⟨bound, b,
    (o.mtpa bound N).map (fun q => (q.1 / b.i, q.2 / b.i)),
    (o.mtpv bound N).map (fun q => (q.1 / b.i, q.2 / b.i))⟩

/-! ### Table-domain policy -/

/-- Modelled from the spec: helper of `trimStrictInc`, keeping entries while
they strictly exceed the previous one. -/
def trimGo {α : Type} [LinearOrder α] (prev : α) : List α → List α
  | [] => []
  | a :: rest => if prev < a then a :: trimGo a rest else []

/-- Modelled from the spec: the MTPA table-domain boundary policy, "if MTPA
torque values are not strictly increasing across the sweep, later sweep
points with magnitude beyond the optimum are excluded from the table
domain" - the longest strictly increasing prefix is kept. -/
def trimStrictInc {α : Type} [LinearOrder α] : List α → List α
  | [] => []
  | a :: rest => a :: trimGo a rest

/-! ### External controller constructors (spec section 6)

The controller classes live in `control.common` and `control.sm.vector`,
outside the visible source; the spec specifies only their construction
contract: each constructor consumes the shared `CtrlParameters` record. -/

/-- Modelled from the spec: `SpeedCtrl(pars)` captures the parameter record
it is constructed from. -/
structure SpeedCtrl where
  pars : CtrlParameters

/-- Modelled from the spec: `CurrentRef(pars)` captures the parameter record
it is constructed from. -/
structure CurrentRef where
  pars : CtrlParameters

/-- Modelled from the spec: `CurrentCtrl(pars)` captures the parameter record
it is constructed from. -/
structure CurrentCtrl where
  pars : CtrlParameters

/-- Modelled from the spec: `SensorlessObserver(pars)` captures the parameter
record it is constructed from. -/
structure SensorlessObserver where
  pars : CtrlParameters

/-- Modelled from the spec: `Datalogger()` takes no parameters. -/
structure Datalogger where
  unitField : Unit

/-- Modelled from the spec: the assembled control pipeline
`SensorlessVectorCtrl(pars, speed_ctrl, current_ref, current_ctrl, observer,
datalog)` of source lines 89-90, an aggregate owning its components and the
shared parameter record. -/
structure SensorlessVectorCtrl where
  pars : CtrlParameters
  speed_ctrl : SpeedCtrl
  current_ref : CurrentRef
  current_ctrl : CurrentCtrl
  observer : SensorlessObserver
  datalog : Datalogger

/-! ### The configuration script (source lines 72-102) -/

/-- Source line 72: `base = BaseValues()`, the all-defaults construction. -/
noncomputable def base : BaseValues :=
  BaseValues.construct BaseValues.w0 BaseValues.i0 BaseValues.u0 BaseValues.p0

/-- Source line 74: `opt_refs = OptimalLoci(pars)`. -/
noncomputable def opt_refs : OptimalLoci := ⟨pars0⟩

/-- Source line 75: `i_s_mtpa = opt_refs.mtpa(2*pars.i_s_max)`, with the
sweep resolution `N` left as a parameter. -/
noncomputable def i_s_mtpa (N : ℕ) : List (ℝ × ℝ) :=
  opt_refs.mtpa (2 * pars0.i_s_max) N

/-- Source line 76: `tau_M_mtpa = opt_refs.torque(i_s_mtpa)`, the vectorized
torque evaluation along the MTPA locus. -/
noncomputable def tau_M_mtpa (N : ℕ) : List ℝ :=
  (i_s_mtpa N).map opt_refs.torque

/-- Source line 78: `i_s_mtpv = opt_refs.mtpv(2*pars.i_s_max)`. -/
noncomputable def i_s_mtpv (N : ℕ) : List (ℝ × ℝ) :=
  opt_refs.mtpv (2 * pars0.i_s_max) N

/-- The parameter record after source lines 77 and 79:
`pars.i_sd_mtpa = LUT(tau_M_mtpa, i_s_mtpa.real)` and
`pars.i_sq_mtpv = LUT(i_s_mtpv.real, i_s_mtpv.imag)`. -/
noncomputable def parsWithTables (N : ℕ) : CtrlParameters :=
  { pars0 with
    i_sd_mtpa := some ⟨tau_M_mtpa N, (i_s_mtpa N).map Prod.fst⟩
    i_sq_mtpv := some ⟨(i_s_mtpv N).map Prod.fst, (i_s_mtpv N).map Prod.snd⟩ }

/-- The whole configuration step of source lines 72-90 as a function of the
`BaseValues` record in scope: the two locus tables are computed and attached
to the parameter record (lines 74-79), the loci are plotted against the base
values (line 81), and the controller components and the pipeline are
constructed from the populated parameter record (lines 84-90). -/
noncomputable def configure (b : BaseValues) (N : ℕ) :
    CtrlParameters × SensorlessVectorCtrl × PlotOutput :=
  (parsWithTables N,
    { pars := parsWithTables N
      speed_ctrl := ⟨parsWithTables N⟩
      current_ref := ⟨parsWithTables N⟩
      current_ctrl := ⟨parsWithTables N⟩
      observer := ⟨parsWithTables N⟩
      datalog := ⟨()⟩ },
    opt_refs.plot (2 * pars0.i_s_max) b N)

/-- The script's final parameter record, as produced with the script's own
`base`. -/
noncomputable def parsFinal (N : ℕ) : CtrlParameters := (configure base N).1

/-- Source lines 84-90: the assembled `ctrl` pipeline. -/
noncomputable def ctrl (N : ℕ) : SensorlessVectorCtrl := (configure base N).2.1

/-- Source lines 94-96: the speed-reference profile,
`Sequence(times, values)` with `values` scaled elementwise by `base.w`. -/
noncomputable def speed_ref : Sequence :=
  ⟨[0, 0.5, 1, 1.5, 2, 2.5, 3, 3.5, 4],
    ([0, 0, 1, 1, 0, -1, -1, 0, 0] : List ℝ).map (fun v => v * base.w)⟩

/-- Source lines 98-100: the external load-torque profile with duplicated
breakpoint times `0.5` and `3.5`, `values` scaled elementwise by `20.1`. -/
noncomputable def tau_L_ext : Sequence :=
  ⟨[0, 0.5, 0.5, 3.5, 3.5, 4],
    ([0, 0, 1, 1, 0, 0] : List ℝ).map (fun v => v * 20.1)⟩

/-- Source line 102: `mdl.t_stop = mdl.speed_ref.times[-1]`, the last
breakpoint time of the speed reference. -/
noncomputable def t_stop : ℝ := speed_ref.times.getLastD 0

/-- A zero-saliency parameter record used to exercise the degenerate MTPA
branch: the configured record with both inductance estimates set to the same
value. -/
noncomputable def degenPars : CtrlParameters :=
  { pars0 with L_d := 1, L_q := 1 }

/-! ### Helper lemmas about the interpolant -/

/-- Once the query has passed two breakpoints, the interpolation forgets the
first of them. -/
theorem interp_cons_cons_skip (p1 p2 : ℝ × ℝ) (rest : List (ℝ × ℝ)) (q : ℝ)
    (h0 : p1.1 ≤ q) (h1 : p2.1 ≤ q) :
    interp (p1 :: p2 :: rest) q = interp (p2 :: rest) q := by
  obtain ⟨t0, v0⟩ := p1
  obtain ⟨t1, v1⟩ := p2
  simp only at h0 h1
  simp [interp, interpGo, not_lt.2 h0, not_lt.2 h1]

/-- The interpolation forgets any prefix of breakpoints the query has already
passed. -/
theorem interp_append_skip (A : List (ℝ × ℝ)) (t v : ℝ) (rest : List (ℝ × ℝ))
    (q : ℝ) (hA : ∀ a ∈ A, a.1 ≤ q) (ht : t ≤ q) :
    interp (A ++ (t, v) :: rest) q = interp ((t, v) :: rest) q := by
  induction A with
  | nil => rfl
  | cons a A ih =>
    cases A with
    | nil =>
      simpa using interp_cons_cons_skip a (t, v) rest q (hA a (by simp)) ht
    | cons b B =>
      have hskip := interp_cons_cons_skip a b (B ++ (t, v) :: rest) q
        (hA a (by simp)) (hA b (by simp))
      simp only [List.cons_append] at hskip ⊢
      rw [hskip]
      exact ih fun x hx => hA x (by simp [hx])

/-- A query at a node whose successor lies strictly beyond it returns the
node value. -/
theorem interp_node_lt (t v t2 v2 : ℝ) (rest : List (ℝ × ℝ)) (h : t < t2) :
    interp ((t, v) :: (t2, v2) :: rest) t = v := by
  simp [interp, interpGo, lt_irrefl, if_pos h]

/-- A query at the node of a one-entry table returns the node value. -/
theorem interp_single (t v q : ℝ) : interp [(t, v)] q = v := by
  simp [interp, interpGo]

/-- A query strictly beyond every breakpoint clamps to the last value. -/
theorem interp_above (l : List (ℝ × ℝ)) (q : ℝ) (hne : l ≠ [])
    (h : ∀ a ∈ l, a.1 < q) :
    interp l q = (l.getLast hne).2 := by
  induction l with
  | nil => exact absurd rfl hne
  | cons a l ih =>
    cases l with
    | nil =>
      obtain ⟨t, v⟩ := a
      simp [interp_single]
    | cons b m =>
      rw [interp_cons_cons_skip a b m q (le_of_lt (h a (by simp)))
        (le_of_lt (h b (by simp)))]
      rw [ih (by simp) fun x hx => h x (by simp [hx])]
      exact congrArg Prod.snd (List.getLast_cons (by simp)).symm

/-- Zipping the two projections of a pair list recovers the list. -/
theorem zip_map_fst_snd_eq (l : List (ℝ × ℝ)) :
    (l.map Prod.fst).zip (l.map Prod.snd) = l := by
  induction l with
  | nil => rfl
  | cons a l ih => simp [ih]

/-- In a list whose abscissas are pairwise nondecreasing, every abscissa is
bounded by the last one. -/
theorem fst_le_getLast_of_pairwise (l : List (ℝ × ℝ)) (hne : l ≠ [])
    (hs : List.Pairwise (fun a b : ℝ × ℝ => a.1 ≤ b.1) l) :
    ∀ a ∈ l, a.1 ≤ (l.getLast hne).1 := by
  induction l with
  | nil => simp
  | cons x l ih =>
    intro a ha
    cases l with
    | nil =>
      simp only [List.mem_singleton] at ha
      subst ha
      rfl
    | cons y m =>
      rw [List.getLast_cons (by simp)]
      rcases List.mem_cons.1 ha with rfl | ha2
      · exact (List.pairwise_cons.1 hs).1 _ (List.getLast_mem (by simp))
      · exact ih (by simp) (List.pairwise_cons.1 hs).2 a ha2

/-- For a machine without permanent-magnet flux and with positive saliency,
the torque along the MTPA locus has the closed form `p * (dL * m^2 / 2)` at
every nonnegative swept magnitude `m`. -/
theorem mtpa_torque_of_pm_free (o : OptimalLoci) (hpsi : o.pars.psi_f = 0)
    (hdL : 0 < o.pars.L_d - o.pars.L_q) (m : ℝ) (hm : 0 ≤ m) :
    o.torque (o.mtpaPoint m) =
      (o.pars.p : ℝ) * ((o.pars.L_d - o.pars.L_q) * m ^ 2 / 2) := by
  have hne : o.pars.L_d ≠ o.pars.L_q := by
    intro h
    rw [h, sub_self] at hdL
    exact lt_irrefl 0 hdL
  have h2 : Real.sqrt 2 ^ 2 = 2 := Real.sq_sqrt (by norm_num)
  rw [OptimalLoci.mtpaPoint, if_neg hne]
  by_cases hm0 : m = 0
  · subst hm0
    simp [OptimalLoci.torque, hpsi]
  · have hmpos : 0 < m := lt_of_le_of_ne hm (Ne.symm hm0)
    have hdLne : o.pars.L_d - o.pars.L_q ≠ 0 := ne_of_gt hdL
    have hcos : o.mtpaCos m = Real.sqrt 2 / 2 := by
      rw [OptimalLoci.mtpaCos, hpsi]
      have hsq : (0 : ℝ) ^ 2 + 8 * (o.pars.L_d - o.pars.L_q) ^ 2 * m ^ 2 =
          (2 * Real.sqrt 2 * ((o.pars.L_d - o.pars.L_q) * m)) ^ 2 := by
        linear_combination (-4 * (o.pars.L_d - o.pars.L_q) ^ 2 * m ^ 2) * h2
      rw [hsq, Real.sqrt_sq (by positivity)]
      field_simp
      ring
    have h12 : 1 - (Real.sqrt 2 / 2) ^ 2 = (Real.sqrt 2 / 2) ^ 2 := by
      rw [div_pow, h2]
      norm_num
    have hsqrt12 : Real.sqrt (1 - (Real.sqrt 2 / 2) ^ 2) = Real.sqrt 2 / 2 := by
      rw [h12, Real.sqrt_sq (by positivity)]
    simp only [OptimalLoci.torque, hcos, hsqrt12, hpsi]
    linear_combination ((o.pars.p : ℝ) * (o.pars.L_d - o.pars.L_q) * m ^ 2 / 4) * h2

/-- The configuration script's MTPA torque array, entrywise: the entry at
index `k` is the closed-form torque at the swept magnitude
`2 * i_s_max * k / N`. -/
theorem tau_M_mtpa_getD (N k : ℕ) (hk : k < N + 1) :
    (tau_M_mtpa N).getD k 0 =
      (pars0.p : ℝ) *
        ((pars0.L_d - pars0.L_q) *
          (2 * pars0.i_s_max * (k : ℝ) / (N : ℝ)) ^ 2 / 2) := by
  have hpsi : opt_refs.pars.psi_f = 0 := rfl
  have hdL : 0 < opt_refs.pars.L_d - opt_refs.pars.L_q := by
    show (0 : ℝ) < 0.0415 - 0.0062
    norm_num
  have hB : (0 : ℝ) ≤ pars0.i_s_max := by
    show (0 : ℝ) ≤ 2 * Real.sqrt 2 * 15.5
    positivity
  have hlen1 : k < (tau_M_mtpa N).length := by
    simpa [tau_M_mtpa, i_s_mtpa, OptimalLoci.mtpa, sweepList] using hk
  rw [List.getD_eq_getElem _ _ hlen1]
  simp only [tau_M_mtpa, i_s_mtpa, OptimalLoci.mtpa, sweepList,
    List.getElem_map, List.getElem_range]
  exact mtpa_torque_of_pm_free opt_refs hpsi hdL _
    (div_nonneg (mul_nonneg (by linarith) (Nat.cast_nonneg k))
      (Nat.cast_nonneg N))

/-- A list with strictly increasing consecutive entries survives the
trimming policy unchanged: helper for the chain form. -/
theorem trimGo_of_chain {α : Type} [LinearOrder α] (a : α) (l : List α)
    (h : List.Chain (· < ·) a l) : trimGo a l = l := by
  induction l generalizing a with
  | nil => rfl
  | cons b m ih =>
    rcases List.chain_cons.1 h with ⟨hab, hbm⟩
    simp only [trimGo]
    rw [if_pos hab, ih b hbm]

/-- A list with strictly increasing consecutive entries survives the
trimming policy unchanged. -/
theorem trimStrictInc_of_chain {α : Type} [LinearOrder α] (l : List α)
    (h : List.Chain' (· < ·) l) : trimStrictInc l = l := by
  cases l with
  | nil => rfl
  | cons a m =>
    simp only [trimStrictInc]
    rw [trimGo_of_chain a m h]

/-- The configuration script's MTPA torque array is strictly increasing from
one sweep point to the next. -/
theorem tau_M_mtpa_chain (N : ℕ) : List.Chain' (· < ·) (tau_M_mtpa N) := by
  have hp : (0 : ℝ) < (pars0.p : ℝ) := by
    show (0 : ℝ) < ((2 : ℤ) : ℝ)
    norm_num
  have hdL : (0 : ℝ) < pars0.L_d - pars0.L_q := by
    show (0 : ℝ) < 0.0415 - 0.0062
    norm_num
  have hB : (0 : ℝ) < pars0.i_s_max := by
    show (0 : ℝ) < 2 * Real.sqrt 2 * 15.5
    positivity
  have hget := tau_M_mtpa_getD N
  have hlen : (tau_M_mtpa N).length = N + 1 := by
    simp [tau_M_mtpa, i_s_mtpa, OptimalLoci.mtpa, sweepList]
  rw [List.chain'_iff_get]
  intro i hi
  rw [hlen] at hi
  rw [List.get_eq_getElem, List.get_eq_getElem, ← List.getD_eq_getElem _ 0,
    ← List.getD_eq_getElem _ 0]
  rw [hget i (by omega), hget (i + 1) (by omega)]
  push_cast
  have hN : (0 : ℝ) < (N : ℝ) := by
    have hN0 : 0 < N := by omega
    exact_mod_cast hN0
  have hx : (0 : ℝ) ≤ 2 * pars0.i_s_max * (i : ℝ) / (N : ℝ) :=
    div_nonneg (mul_nonneg (by linarith) (Nat.cast_nonneg i)) (le_of_lt hN)
  have hxy : 2 * pars0.i_s_max * (i : ℝ) / (N : ℝ) <
      2 * pars0.i_s_max * ((i : ℝ) + 1) / (N : ℝ) := by
    have hnum : 2 * pars0.i_s_max * (i : ℝ) <
        2 * pars0.i_s_max * ((i : ℝ) + 1) := by nlinarith
    exact (div_lt_div_iff_of_pos_right hN).2 hnum
  have hsq := pow_lt_pow_left hxy hx (by norm_num : 2 ≠ 0)
  nlinarith [hsq, mul_pos hp hdL]

/-- C4: along the whole MTPA sweep domain the torque values are
nondecreasing in the swept magnitude (in fact strictly increasing), and the
table-domain boundary policy excludes nothing: no sweep point lies beyond
the torque optimum, so the trimmed domain is the full array. -/
theorem C4_mtpa_torque_monotone (N j k : ℕ) (hjk : j ≤ k) (hk : k < N + 1) :
    (tau_M_mtpa N).getD j 0 ≤ (tau_M_mtpa N).getD k 0 ∧
    trimStrictInc (tau_M_mtpa N) = tau_M_mtpa N := by
  refine ⟨?_, trimStrictInc_of_chain _ (tau_M_mtpa_chain N)⟩
  rw [tau_M_mtpa_getD N j (lt_of_le_of_lt hjk hk), tau_M_mtpa_getD N k hk]
  have hp : (0 : ℝ) ≤ (pars0.p : ℝ) := by
    show (0 : ℝ) ≤ ((2 : ℤ) : ℝ)
    norm_num
  have hdL : (0 : ℝ) ≤ pars0.L_d - pars0.L_q := by
    show (0 : ℝ) ≤ 0.0415 - 0.0062
    norm_num
  have hB : (0 : ℝ) ≤ pars0.i_s_max := by
    show (0 : ℝ) ≤ 2 * Real.sqrt 2 * 15.5
    positivity
  have hx : (0 : ℝ) ≤ 2 * pars0.i_s_max * (j : ℝ) / (N : ℝ) := by positivity
  have hxy : 2 * pars0.i_s_max * (j : ℝ) / (N : ℝ) ≤
      2 * pars0.i_s_max * (k : ℝ) / (N : ℝ) := by
    gcongr
  have hsq := pow_le_pow_left hx hxy 2
  nlinarith [mul_nonneg hp hdL, hsq,
    mul_nonneg (mul_nonneg hp hdL)
      (sub_nonneg.2 hsq)]

/-- Witness for C4 at the concrete sweep resolution `N = 1` and indices
`0 ≤ 1 < 2`. -/
theorem C4_mtpa_torque_monotone_witness :
    (tau_M_mtpa 1).getD 0 0 ≤ (tau_M_mtpa 1).getD 1 0 ∧
    trimStrictInc (tau_M_mtpa 1) = tau_M_mtpa 1 :=
  C4_mtpa_torque_monotone 1 0 1 (by norm_num) (by norm_num)

/-! ### Claim theorems -/

/-- C1: the Optimal Locus Solver is invoked with sweep bound `2*i_s_max` for
both the MTPA and the MTPV locus, and exactly the two lookup tables
torque-to-d-axis-current and d-axis-to-q-axis-current are stored into the
parameter record, which every controller component then receives already
populated. -/
theorem C1_locus_tables_wired (N : ℕ) :
    (parsFinal N).i_sd_mtpa =
        some ⟨(opt_refs.mtpa (2 * pars0.i_s_max) N).map opt_refs.torque,
          (opt_refs.mtpa (2 * pars0.i_s_max) N).map Prod.fst⟩ ∧
    (parsFinal N).i_sq_mtpv =
        some ⟨(opt_refs.mtpv (2 * pars0.i_s_max) N).map Prod.fst,
          (opt_refs.mtpv (2 * pars0.i_s_max) N).map Prod.snd⟩ ∧
    (ctrl N).speed_ctrl.pars = parsFinal N ∧
    (ctrl N).current_ref.pars = parsFinal N ∧
    (ctrl N).current_ctrl.pars = parsFinal N ∧
    (ctrl N).observer.pars = parsFinal N ∧
    (ctrl N).pars = parsFinal N :=
  ⟨rfl, rfl, rfl, rfl, rfl, rfl, rfl⟩

/-- C2, counterexample: a `BaseValues` record constructed from valid (all
positive) rated inputs that are not the class defaults violates the claimed
identity `L*w = Z`, because the derived fields stay at their class-computed
defaults instead of tracking the rated arguments. -/
theorem C2_base_value_identities_counterexample :
    0 < 2 * BaseValues.w0 ∧ 0 < BaseValues.i0 ∧ 0 < BaseValues.u0 ∧
    0 < BaseValues.p0 ∧
    (BaseValues.construct (2 * BaseValues.w0) BaseValues.i0 BaseValues.u0
          BaseValues.p0).L *
        (BaseValues.construct (2 * BaseValues.w0) BaseValues.i0 BaseValues.u0
          BaseValues.p0).w ≠
      (BaseValues.construct (2 * BaseValues.w0) BaseValues.i0 BaseValues.u0
          BaseValues.p0).Z := by
  have hw : 0 < BaseValues.w0 := by unfold BaseValues.w0; positivity
  have hi : 0 < BaseValues.i0 := by unfold BaseValues.i0; positivity
  have hu : 0 < BaseValues.u0 := by unfold BaseValues.u0; positivity
  have hZ : 0 < BaseValues.Z0 := div_pos hu hi
  refine ⟨by linarith, hi, hu, by norm_num [BaseValues.p0], ?_⟩
  show BaseValues.L0 * (2 * BaseValues.w0) ≠ BaseValues.Z0
  have hwne : BaseValues.w0 ≠ 0 := ne_of_gt hw
  have h2 : BaseValues.L0 * (2 * BaseValues.w0) = 2 * BaseValues.Z0 := by
    rw [BaseValues.L0]
    field_simp
    ring
  rw [h2]
  intro hcontra
  linarith

/-- C2, amended: the derived fields are constants computed from the class
default rated values, so the four identities `Z*i = u`, `L*w = Z`,
`P = 1.5*u*i` and `tau*w = p*P` hold exactly for the record constructed with
the default rated inputs - which is the only construction the script
performs (`base = BaseValues()`). -/
theorem C2_base_value_identities :
    base.Z * base.i = base.u ∧ base.L * base.w = base.Z ∧
    base.P = 1.5 * base.u * base.i ∧
    base.tau * base.w = (base.p : ℝ) * base.P := by
  have hw : BaseValues.w0 ≠ 0 := by
    have : 0 < BaseValues.w0 := by unfold BaseValues.w0; positivity
    exact ne_of_gt this
  have hi : BaseValues.i0 ≠ 0 := by
    have : 0 < BaseValues.i0 := by unfold BaseValues.i0; positivity
    exact ne_of_gt this
  refine ⟨?_, ?_, rfl, ?_⟩
  · show BaseValues.Z0 * BaseValues.i0 = BaseValues.u0
    rw [BaseValues.Z0, div_mul_cancel₀ _ hi]
  · show BaseValues.L0 * BaseValues.w0 = BaseValues.Z0
    rw [BaseValues.L0, div_mul_cancel₀ _ hw]
  · show BaseValues.tau0 * BaseValues.w0 = (BaseValues.p0 : ℝ) * BaseValues.P0
    rw [BaseValues.tau0, div_mul_cancel₀ _ hw]

/-- C3: at zero saliency (`L_d = L_q`) the MTPA solver detects the
degenerate case and recovers by the q-axis-only fallback: the whole locus is
`(0, m)` over the sweep, so every phasor has d-axis component exactly `0`;
no division is performed on this branch and no failure is propagated (the
result is a plain phasor list). -/
theorem C3_degenerate_mtpa_q_axis (o : OptimalLoci) (bound : ℝ) (N : ℕ)
    (hdeg : o.pars.L_d = o.pars.L_q) :
    o.mtpa bound N = (sweepList bound N).map (fun m => ((0 : ℝ), m)) ∧
    ∀ pt ∈ o.mtpa bound N, pt.1 = 0 := by
  have h1 : o.mtpa bound N = (sweepList bound N).map (fun m => ((0 : ℝ), m)) := by
    simp [OptimalLoci.mtpa, OptimalLoci.mtpaPoint, if_pos hdeg]
  refine ⟨h1, ?_⟩
  rw [h1]
  intro pt hpt
  simp only [List.mem_map] at hpt
  obtain ⟨m, _, hm⟩ := hpt
  rw [← hm]

/-- Witness for C3 at a concrete zero-saliency record and sweep. -/
theorem C3_degenerate_mtpa_q_axis_witness :
    degenPars.L_d = degenPars.L_q ∧
    OptimalLoci.mtpa ⟨degenPars⟩ 2 1 =
      (sweepList 2 1).map (fun m => ((0 : ℝ), m)) :=
  ⟨rfl, (C3_degenerate_mtpa_q_axis ⟨degenPars⟩ 2 1 rfl).1⟩

/-- C8, counterexample: constructing `BaseValues` from all-negative rated
inputs does not fail - the dataclass has no validation and no
`InvalidParameter` path, and the construction yields a plain record. -/
theorem C8_no_validation_counterexample :
    BaseValues.construct (-1) (-1) (-1) (-1) =
      ⟨-1, -1, -1, -1, BaseValues.psi0, BaseValues.P0, BaseValues.Z0,
        BaseValues.L0, BaseValues.tau0⟩ :=
  rfl

/-- C8, amended: construction is total, pure and side-effect-free for all
inputs, positive or not; it always yields the record with the given rated
fields and the class-default derived fields, with no error path at all. -/
theorem C8_construction_total (w i u : ℝ) (p : ℤ) :
    BaseValues.construct w i u p =
      ⟨w, i, u, p, BaseValues.psi0, BaseValues.P0, BaseValues.Z0,
        BaseValues.L0, BaseValues.tau0⟩ :=
  rfl

/-- C9: the assembled parameter record and control pipeline do not depend on
the `BaseValues` record - any two base records yield identical tables and
pipeline - while the base record flows (only) into the plot output. -/
theorem C9_base_values_noninterference (b1 b2 : BaseValues) (N : ℕ) :
    (configure b1 N).1 = (configure b2 N).1 ∧
    (configure b1 N).2.1 = (configure b2 N).2.1 ∧
    (configure b1 N).2.2.base = b1 :=
  ⟨rfl, rfl, rfl⟩

/-- C10: the simulation stop time equals the last breakpoint time of the
speed-reference profile, namely `4`, and every breakpoint lies within the
simulated interval. -/
theorem C10_stop_time_last_breakpoint :
    t_stop = 4 ∧ t_stop = speed_ref.times.getLastD 0 ∧
    ∀ t ∈ speed_ref.times, t ≤ t_stop := by
  have h4 : t_stop = 4 := by
    show ([0, 0.5, 1, 1.5, 2, 2.5, 3, 3.5, 4] : List ℝ).getLastD 0 = 4
    norm_num [List.getLastD]
  refine ⟨h4, rfl, ?_⟩
  intro t ht
  rw [h4]
  simp only [speed_ref, List.mem_cons, List.not_mem_nil, or_false] at ht
  rcases ht with rfl | rfl | rfl | rfl | rfl | rfl | rfl | rfl | rfl <;> norm_num

/-- C5: the speed-reference Sequence built from the script's breakpoints
scaled by the base angular speed evaluates to exactly `1*w` at `t = 1.25`
(interior of a flat segment) and to exactly `-0.5*w` at `t = 2.25` (linear
midpoint between the breakpoint values `0` and `-w`). -/
theorem C5_speed_ref_scenario :
    speed_ref.eval (5 / 4) = base.w ∧
    speed_ref.eval (9 / 4) = -(1 / 2) * base.w := by
  constructor
  · show interp _ _ = _
    norm_num [speed_ref, interp, interpGo]
  · show interp _ _ = _
    norm_num [speed_ref, interp, interpGo]
    ring

/-- C6: a query exactly at a duplicated abscissa (an encoded step) returns
the value associated with the second of the two equal entries - the
right-limit policy - for both interpolant flavors. -/
theorem C6_duplicate_abscissa_right_limit (A B : List (ℝ × ℝ)) (t v1 v2 : ℝ)
    (hsorted : List.Sorted (· ≤ ·)
      ((A ++ (t, v1) :: (t, v2) :: B).map Prod.fst))
    (hB : ∀ b ∈ B, t < b.1) :
    LUT.eval ⟨(A ++ (t, v1) :: (t, v2) :: B).map Prod.fst,
        (A ++ (t, v1) :: (t, v2) :: B).map Prod.snd⟩ t = v2 ∧
    Sequence.eval ⟨(A ++ (t, v1) :: (t, v2) :: B).map Prod.fst,
        (A ++ (t, v1) :: (t, v2) :: B).map Prod.snd⟩ t = v2 := by
  have hA : ∀ a ∈ A, a.1 ≤ t := by
    have hsplit := List.pairwise_append.1 (by simpa [List.map_append] using hsorted)
    exact fun a ha => hsplit.2.2 a.1 (List.mem_map_of_mem Prod.fst ha) t (by simp)
  have hmain : interp (A ++ (t, v1) :: (t, v2) :: B) t = v2 := by
    rw [interp_append_skip A t v1 ((t, v2) :: B) t hA le_rfl]
    rw [interp_cons_cons_skip (t, v1) (t, v2) B t le_rfl le_rfl]
    cases B with
    | nil => exact interp_single t v2 t
    | cons b B2 =>
      obtain ⟨tb, vb⟩ := b
      exact interp_node_lt t v2 tb vb B2 (hB (tb, vb) (by simp))
  constructor
  · show interp _ _ = _
    rw [zip_map_fst_snd_eq]
    exact hmain
  · show interp _ _ = _
    rw [zip_map_fst_snd_eq]
    exact hmain

/-- Witness for C6 at the script's load-torque profile: the query exactly at
the duplicated breakpoint time `0.5` returns the stepped-to value `20.1`. -/
theorem C6_duplicate_abscissa_right_limit_witness :
    tau_L_ext.eval (1 / 2) = 201 / 10 := by
  have hs : List.Sorted (· ≤ ·)
      (([((0 : ℝ), (0 : ℝ))] ++
        ((1 : ℝ) / 2, (0 : ℝ)) :: ((1 : ℝ) / 2, (201 : ℝ) / 10) ::
          [((7 : ℝ) / 2, (201 : ℝ) / 10), ((7 : ℝ) / 2, (0 : ℝ)),
            ((4 : ℝ), (0 : ℝ))]).map Prod.fst) := by
    norm_num [List.sorted_cons]
  have hb : ∀ b ∈ [((7 : ℝ) / 2, (201 : ℝ) / 10), ((7 : ℝ) / 2, (0 : ℝ)),
      ((4 : ℝ), (0 : ℝ))], (1 : ℝ) / 2 < b.1 := by
    intro b hb
    rcases List.mem_cons.1 hb with rfl | hb2
    · norm_num
    rcases List.mem_cons.1 hb2 with rfl | hb3
    · norm_num
    rcases List.mem_cons.1 hb3 with rfl | hb4
    · norm_num
    · simp at hb4
  have h := (C6_duplicate_abscissa_right_limit [((0 : ℝ), (0 : ℝ))]
      [((7 : ℝ) / 2, (201 : ℝ) / 10), ((7 : ℝ) / 2, (0 : ℝ)),
        ((4 : ℝ), (0 : ℝ))] (1 / 2) 0 (201 / 10) hs hb).2
  have he : tau_L_ext =
      ⟨([((0 : ℝ), (0 : ℝ))] ++
          ((1 : ℝ) / 2, (0 : ℝ)) :: ((1 : ℝ) / 2, (201 : ℝ) / 10) ::
            [((7 : ℝ) / 2, (201 : ℝ) / 10), ((7 : ℝ) / 2, (0 : ℝ)),
              ((4 : ℝ), (0 : ℝ))]).map Prod.fst,
        ([((0 : ℝ), (0 : ℝ))] ++
          ((1 : ℝ) / 2, (0 : ℝ)) :: ((1 : ℝ) / 2, (201 : ℝ) / 10) ::
            [((7 : ℝ) / 2, (201 : ℝ) / 10), ((7 : ℝ) / 2, (0 : ℝ)),
              ((4 : ℝ), (0 : ℝ))]).map Prod.snd⟩ := by
    norm_num [tau_L_ext]
  rw [he]
  exact h

/-- C7: an out-of-domain query never raises - the interpolant is total - and
clamps: a query strictly below the first abscissa returns the first value,
and a query strictly above the last abscissa returns the last value, for
both interpolant flavors. -/
theorem C7_out_of_domain_clamping (t0 v0 : ℝ) (rest : List (ℝ × ℝ)) (q : ℝ)
    (hsorted : List.Sorted (· ≤ ·) (((t0, v0) :: rest).map Prod.fst)) :
    (q < t0 →
      LUT.eval ⟨((t0, v0) :: rest).map Prod.fst,
          ((t0, v0) :: rest).map Prod.snd⟩ q = v0 ∧
      Sequence.eval ⟨((t0, v0) :: rest).map Prod.fst,
          ((t0, v0) :: rest).map Prod.snd⟩ q = v0) ∧
    ((((t0, v0) :: rest).getLast (by simp)).1 < q →
      LUT.eval ⟨((t0, v0) :: rest).map Prod.fst,
          ((t0, v0) :: rest).map Prod.snd⟩ q =
        (((t0, v0) :: rest).getLast (by simp)).2 ∧
      Sequence.eval ⟨((t0, v0) :: rest).map Prod.fst,
          ((t0, v0) :: rest).map Prod.snd⟩ q =
        (((t0, v0) :: rest).getLast (by simp)).2) := by
  constructor
  · intro hq
    have hbelow : interp ((t0, v0) :: rest) q = v0 := by
      simp [interp, if_pos hq]
    constructor
    · show interp _ _ = _
      rw [zip_map_fst_snd_eq]
      exact hbelow
    · show interp _ _ = _
      rw [zip_map_fst_snd_eq]
      exact hbelow
  · intro hq
    have hpw : List.Pairwise (fun a b : ℝ × ℝ => a.1 ≤ b.1) ((t0, v0) :: rest) :=
      List.pairwise_map.1 hsorted
    have hall : ∀ a ∈ (t0, v0) :: rest, a.1 < q := fun a ha =>
      lt_of_le_of_lt (fst_le_getLast_of_pairwise _ (by simp) hpw a ha) hq
    have habove := interp_above ((t0, v0) :: rest) q (by simp) hall
    constructor
    · show interp _ _ = _
      rw [zip_map_fst_snd_eq]
      exact habove
    · show interp _ _ = _
      rw [zip_map_fst_snd_eq]
      exact habove

/-- Witness for C7 at a concrete two-node table: the query `-1` below the
domain clamps to the first value `1`, and the query `5` above the domain
clamps to the last value `3`. -/
theorem C7_out_of_domain_clamping_witness :
    LUT.eval ⟨[(0 : ℝ), 2], [(1 : ℝ), 3]⟩ (-1) = 1 ∧
    LUT.eval ⟨[(0 : ℝ), 2], [(1 : ℝ), 3]⟩ 5 = 3 := by
  have hs : List.Sorted (· ≤ ·)
      ((((0 : ℝ), (1 : ℝ)) :: [((2 : ℝ), (3 : ℝ))]).map Prod.fst) := by
    norm_num [List.sorted_cons]
  constructor
  · have h := ((C7_out_of_domain_clamping 0 1 [((2 : ℝ), (3 : ℝ))] (-1) hs).1
      (by norm_num)).1
    simpa using h
  · have h := ((C7_out_of_domain_clamping 0 1 [((2 : ℝ), (3 : ℝ))] 5 hs).2
      (by norm_num [List.getLast])).1
    simpa [List.getLast] using h

end Motulator
